import Mathlib

/-!
Shallow embedding of the DokuNote project mutation service
(`createProject`, `updateProject`, `deleteProject`, `toggleProjectPublic`,
`duplicateProject`) and proofs about its behaviour.

The store is modelled as explicit state (lists of records); external
collaborators (session resolver, tenant-access check, the two database
tables) are modelled as an environment of oracles that either succeed or
fail, deterministic within one request.  A thrown JavaScript fault is an
`Except.error` at the service boundary; the `try/catch` of each action is
translated explicitly.
-/

namespace DokuNote

instance exceptDecEq {ε α : Type} [DecidableEq ε] [DecidableEq α] :
    DecidableEq (Except ε α) := fun x y =>
  match x, y with
  | .ok a, .ok b =>
    if h : a = b then isTrue (by rw [h])
    else isFalse (fun hh => h (by injection hh))
  | .error e, .error f =>
    if h : e = f then isTrue (by rw [h])
    else isFalse (fun hh => h (by injection hh))
  | .ok _, .error _ => isFalse (fun hh => Except.noConfusion hh)
  | .error _, .ok _ => isFalse (fun hh => Except.noConfusion hh)

/-! ## Data model -/

/-- The `settings` blob stored on a project (feature flags). -/
structure ProjectSettings where
  enableSearch : Bool
  enableFeedback : Bool
  showLastUpdated : Bool
  enablePrintMode : Bool
  deriving Repr, DecidableEq

/-- The default settings written by `createProject`. -/
def defaultSettings : ProjectSettings :=
  { enableSearch := true, enableFeedback := true
    showLastUpdated := true, enablePrintMode := true }

/-- A project record as stored in the project table. -/
structure Project where
  id : Nat
  tenantId : Nat
  name : String
  slug : String
  description : Option String
  isPublic : Bool
  publishedAt : Option Nat
  metaTitle : Option String
  metaDescription : Option String
  primaryColor : Option String
  customCss : Option String
  settings : ProjectSettings
  isActive : Bool
  deriving Repr, DecidableEq

/-- A child document record (only the fields the claims need). -/
structure Document where
  id : Nat
  projectId : Nat
  title : String
  deriving Repr, DecidableEq

/-- An analytics event record. -/
structure AnalyticsEvent where
  type : String
  projectId : Option Nat
  deriving Repr, DecidableEq

/-- The store: project table, document table, event table, plus the id
sequence used for new rows. -/
structure DB where
  projects : List Project
  documents : List Document
  events : List AnalyticsEvent
  nextId : Nat
  deriving Repr, DecidableEq

/-- The authenticated session returned by `requireAuth`. -/
structure Session where
  userId : Nat
  currentTenantId : Option Nat
  deriving Repr, DecidableEq

/-- A thrown fault: either a validation (Zod) error carrying its first
issue message, or an opaque failure from another collaborator. -/
inductive Fault where
  | zodError (msg : String)
  | authFailure
  | dbFailure
  deriving Repr, DecidableEq

/-- The request environment: outcome of each external collaborator call,
deterministic within one request, and the current clock. -/
structure Env where
  auth : Except Fault Session
  tenantAccess : Except Fault Unit
  sessionDB : Except Fault Unit
  projectWrite : Except Fault Unit
  eventWrite : Except Fault Unit
  now : Nat

/-- The structured result every action returns on the happy path. -/
structure ProjectActionResult where
  success : Bool
  message : String
  projectId : Option Nat := none
  error : Option String := none
  deriving Repr, DecidableEq

/-! ## Form data -/

/-- A submitted form: key/value pairs; `get` returns the first value for a
key, or `none` when the field is absent (JavaScript `null`). -/
abbrev FormData := List (String × String)

def FormData.get (fd : FormData) (k : String) : Option String :=
  (List.find? (fun p => p.1 == k) fd).map Prod.snd

/-- JavaScript `x || undefined`: `null` and the empty string collapse to
`undefined`. -/
def orUndef (o : Option String) : Option String :=
  o.bind (fun s => if s = "" then none else some s)

/-! ## Slug generation (spec-modelled) -/

/-- State of the slug normalizer: nothing emitted yet / last emitted a
character / emitted something and a separator is pending. -/
inductive SlugSt where
  | start
  | word
  | pend
  deriving Repr, DecidableEq

/-- State transition of the normalizer on one character. -/
def slugStep (st : SlugSt) (c : Char) : SlugSt :=
  if c.isAlphanum then .word
  else match st with
    | .start => .start
    | _ => .pend

/-- Character-level slug normalizer: alphanumeric characters are emitted
lowercased; runs of other characters become a single dash between words,
with no leading or trailing dash. -/
def slugA : SlugSt → List Char → List Char
  | _, [] => []
  | st, c :: cs =>
    if c.isAlphanum then
      (match st with
        | .pend => ['-', c.toLower]
        | _ => [c.toLower]) ++ slugA .word cs
    else
      slugA (slugStep st c) cs

/-- Modelled from the spec: `generateSlug` lives in `src/lib/utils`, which
is not part of the excerpt.  The spec says the slug is derived
deterministically from the name: lowercase, separator-normalized (a slug
is the lowercased words of the input joined by single dashes). -/
def generateSlug (s : String) : String := String.mk (slugA .start s.data)

/-- Little-endian base-10 digits, structurally recursive on a fuel bound
so the kernel can evaluate it. -/
def natDigitsAux : Nat → Nat → List Nat
  | 0, _ => []
  | _ + 1, 0 => []
  | fuel + 1, n + 1 => (n + 1) % 10 :: natDigitsAux fuel ((n + 1) / 10)

/-- Little-endian base-10 digits of `n`. -/
def natDigits (n : Nat) : List Nat := natDigitsAux n n

/-- Decimal rendering of a counter, as JavaScript string interpolation of
a number produces it. -/
def natStr (n : Nat) : String :=
  if n = 0 then "0" else String.mk ((natDigits n).reverse.map Nat.digitChar)

/-! ## Validation schemas (spec-modelled) -/

/-- The raw data object `createProject` builds from the form (lines 54-62
of the action source): `name` is the raw form value (JavaScript `null`
when absent), the other strings go through `x || undefined`, and
`isPublic` is the boolean of `formData.get('isPublic') === 'true'`. -/
structure RawCreateData where
  name : Option String
  description : Option String
  isPublic : Bool
  metaTitle : Option String
  metaDescription : Option String
  primaryColor : Option String
  customCss : Option String
  deriving Repr, DecidableEq

def rawCreateData (fd : FormData) : RawCreateData :=
  { name := fd.get "name"
    description := orUndef (fd.get "description")
    isPublic := fd.get "isPublic" == some "true"
    metaTitle := orUndef (fd.get "metaTitle")
    metaDescription := orUndef (fd.get "metaDescription")
    primaryColor := orUndef (fd.get "primaryColor")
    customCss := orUndef (fd.get "customCss") }

/-- The validated create payload. -/
structure ValidatedCreate where
  name : String
  description : Option String
  isPublic : Bool
  metaTitle : Option String
  metaDescription : Option String
  primaryColor : Option String
  customCss : Option String
  deriving Repr, DecidableEq

/-- Modelled from the spec: `createProjectSchema` lives in
`src/lib/validation/tenant-schemas`, which is not part of the excerpt.
The spec says `name` is required and every other field optional, and that
a validation failure is thrown with its first issue message. -/
def createProjectSchemaParse (r : RawCreateData) : Except Fault ValidatedCreate :=
  match r.name with
  | none => .error (.zodError "Name is required")
  | some n =>
    if n = "" then .error (.zodError "Name is required")
    else .ok { name := n, description := r.description, isPublic := r.isPublic
               metaTitle := r.metaTitle, metaDescription := r.metaDescription
               primaryColor := r.primaryColor, customCss := r.customCss }

/-- The raw/validated data object of `updateProject` (lines 181-189):
every string field goes through `x || undefined` (`name` included), and
`isPublic` is again coerced to a boolean. -/
structure UpdateFields where
  name : Option String
  description : Option String
  isPublic : Bool
  metaTitle : Option String
  metaDescription : Option String
  primaryColor : Option String
  customCss : Option String
  deriving Repr, DecidableEq

def rawUpdateData (fd : FormData) : UpdateFields :=
  { name := orUndef (fd.get "name")
    description := orUndef (fd.get "description")
    isPublic := fd.get "isPublic" == some "true"
    metaTitle := orUndef (fd.get "metaTitle")
    metaDescription := orUndef (fd.get "metaDescription")
    primaryColor := orUndef (fd.get "primaryColor")
    customCss := orUndef (fd.get "customCss") }

/-- Modelled from the spec: `updateProjectSchema` is not part of the
excerpt.  The spec says every update field is optional, so the schema
accepts the raw data unchanged (the raw object already carries `isPublic`
as a definite boolean). -/
def updateProjectSchemaParse (r : UpdateFields) : Except Fault UpdateFields :=
  .ok r

/-! ## Store operations -/

/-- `db.project.findFirst({ where: { tenantId, slug } })` — note: no
`isActive` filter in the source. -/
def findFirstProjectByTenantSlug (db : DB) (tenantId : Nat) (slug : String) :
    Option Project :=
  db.projects.find? (fun p => p.tenantId == tenantId && p.slug == slug)

/-- `db.project.findUnique({ where: { id, tenantId } })`. -/
def findUniqueProjectByIdTenant (db : DB) (id tenantId : Nat) : Option Project :=
  db.projects.find? (fun p => p.id == id && p.tenantId == tenantId)

/-- `db.project.findFirst({ where: { tenantId, slug, id: { not } } })`. -/
def findConflictingProject (db : DB) (tenantId : Nat) (slug : String) (notId : Nat) :
    Option Project :=
  db.projects.find?
    (fun p => p.tenantId == tenantId && p.slug == slug && !(p.id == notId))

/-- The `data` object passed to `projects.create`. -/
structure CreateProjectData where
  name : String
  slug : String
  description : Option String
  isPublic : Bool
  metaTitle : Option String
  metaDescription : Option String
  primaryColor : Option String
  customCss : Option String
  settings : ProjectSettings
  deriving Repr, DecidableEq

/-- Insert a new project row.  `publishedAt` and `isActive` are never in
the create data, so they take the store defaults the spec describes:
`publishedAt` unset (null) and `isActive` true. -/
def insertProject (db : DB) (tenantId : Nat) (d : CreateProjectData) :
    Project × DB :=
  let p : Project :=
    { id := db.nextId, tenantId := tenantId, name := d.name, slug := d.slug
      description := d.description, isPublic := d.isPublic, publishedAt := none
      metaTitle := d.metaTitle, metaDescription := d.metaDescription
      primaryColor := d.primaryColor, customCss := d.customCss
      settings := d.settings, isActive := true }
  (p, { db with projects := db.projects ++ [p], nextId := db.nextId + 1 })

/-- `tenantDB.projects.create({ data })`: the tenant-scoped wrapper fills
in the session's tenant id; the write can throw. -/
def tenantCreateProject (env : Env) (db : DB) (tenantId : Nat)
    (d : CreateProjectData) : Except Fault Project × DB :=
  match env.projectWrite with
  | .error f => (.error f, db)
  | .ok _ =>
    let (p, db') := insertProject db tenantId d
    (.ok p, db')

/-- A partial `data` object for `projects.update`: `none` means the field
is absent from the update (Prisma leaves it unchanged). -/
structure ProjectUpdateData where
  name : Option String := none
  slug : Option String := none
  description : Option String := none
  isPublic : Option Bool := none
  publishedAt : Option (Option Nat) := none
  metaTitle : Option String := none
  metaDescription : Option String := none
  primaryColor : Option String := none
  customCss : Option String := none
  isActive : Option Bool := none
  deriving Repr, DecidableEq

/-- Apply a partial update to a row.  For the optional string columns an
update value is always a definite string here (the actions collapse empty
form values to `undefined`), so a present value overwrites and an absent
one keeps the stored value. -/
def applyUpdate (p : Project) (d : ProjectUpdateData) : Project :=
  { p with
    name := d.name.getD p.name
    slug := d.slug.getD p.slug
    description := d.description.or p.description
    isPublic := d.isPublic.getD p.isPublic
    publishedAt := d.publishedAt.getD p.publishedAt
    metaTitle := d.metaTitle.or p.metaTitle
    metaDescription := d.metaDescription.or p.metaDescription
    primaryColor := d.primaryColor.or p.primaryColor
    customCss := d.customCss.or p.customCss
    isActive := d.isActive.getD p.isActive }

/-- `tenantDB.projects.update({ where: { id }, data })`: tenant-scoped;
Prisma throws when no row matches, and the write itself can throw. -/
def tenantUpdateProject (env : Env) (db : DB) (tenantId id : Nat)
    (d : ProjectUpdateData) : Except Fault Project × DB :=
  match env.projectWrite with
  | .error f => (.error f, db)
  | .ok _ =>
    match db.projects.find? (fun p => p.id == id && p.tenantId == tenantId) with
    | none => (.error .dbFailure, db)
    | some p =>
      (.ok (applyUpdate p d),
        { db with projects := db.projects.map (fun q =>
            if q.id == id && q.tenantId == tenantId then applyUpdate q d else q) })

/-- `db.project.update({ where: { id }, data })`: direct access, filtered
on `id` only (used by `deleteProject`). -/
def directUpdateProject (env : Env) (db : DB) (id : Nat)
    (d : ProjectUpdateData) : Except Fault Project × DB :=
  match env.projectWrite with
  | .error f => (.error f, db)
  | .ok _ =>
    match db.projects.find? (fun p => p.id == id) with
    | none => (.error .dbFailure, db)
    | some p =>
      (.ok (applyUpdate p d),
        { db with projects := db.projects.map (fun q =>
            if q.id == id then applyUpdate q d else q) })

/-- `tenantDB.events.create({ data })`. -/
def tenantCreateEvent (env : Env) (db : DB) (e : AnalyticsEvent) :
    Except Fault Unit × DB :=
  match env.eventWrite with
  | .error f => (.error f, db)
  | .ok _ => (.ok (), { db with events := db.events ++ [e] })

/-! ## The five mutation actions -/

/-- Body of `createProject` (the `try` block). -/
def createProjectBody (env : Env) (db : DB) (fd : FormData) :
    Except Fault ProjectActionResult × DB :=
  match env.auth with
  | .error f => (.error f, db)
  | .ok session =>
    match session.currentTenantId with
    | none =>
      (.ok { success := false
             message := "Please select an organization before creating a project." }, db)
    | some tenantId =>
      match createProjectSchemaParse (rawCreateData fd) with
      | .error f => (.error f, db)
      | .ok validated =>
        let slug := generateSlug validated.name
        match env.tenantAccess with
        | .error f => (.error f, db)
        | .ok _ =>
          match env.sessionDB with
          | .error f => (.error f, db)
          | .ok _ =>
            match findFirstProjectByTenantSlug db tenantId slug with
            | some _ =>
              (.ok { success := false
                     message := "A project with this name already exists. Please choose a different name." }, db)
            | none =>
              match tenantCreateProject env db tenantId
                  { name := validated.name, slug := slug
                    description := validated.description
                    isPublic := validated.isPublic
                    metaTitle := validated.metaTitle
                    metaDescription := validated.metaDescription
                    primaryColor := validated.primaryColor
                    customCss := validated.customCss
                    settings := defaultSettings } with
              | (.error f, db1) => (.error f, db1)
              | (.ok project, db1) =>
                match env.sessionDB with
                | .error f => (.error f, db1)
                | .ok _ =>
                  match tenantCreateEvent env db1
                      { type := "project_created", projectId := some project.id } with
                  | (.error f, db2) => (.error f, db2)
                  | (.ok _, db2) =>
                    (.ok { success := true
                           message := "Project created successfully!"
                           projectId := some project.id }, db2)

/-- `createProject`: the `catch` block returns the first Zod issue for
validation errors; for any other fault it logs with
`(await requireAuth()).user.id`, re-invoking `requireAuth`, whose own
fault therefore escapes the boundary. -/
def createProject (env : Env) (db : DB) (fd : FormData) :
    Except Fault ProjectActionResult × DB :=
  match createProjectBody env db fd with
  | (.ok r, db') => (.ok r, db')
  | (.error (.zodError msg), db') => (.ok { success := false, message := msg }, db')
  | (.error _, db') =>
    match env.auth with
    | .error f2 => (.error f2, db')
    | .ok _ =>
      (.ok { success := false
             message := "Failed to create project. Please try again." }, db')

/-- The `data` object `updateProject` passes to `projects.update`:
the validated fields, `isPublic` always present as a definite boolean,
plus the regenerated slug when the name changed. -/
def updateDataOfValidated (v : UpdateFields) (slug : Option String) :
    ProjectUpdateData :=
  { name := v.name, slug := slug, description := v.description
    isPublic := some v.isPublic
    metaTitle := v.metaTitle, metaDescription := v.metaDescription
    primaryColor := v.primaryColor, customCss := v.customCss }

/-- Shared tail of `updateProject`: the row update and the
`project_updated` event. -/
def updateProjectFinish (env : Env) (db : DB) (tenantId projectId : Nat)
    (d : ProjectUpdateData) : Except Fault ProjectActionResult × DB :=
  match tenantUpdateProject env db tenantId projectId d with
  | (.error f, db1) => (.error f, db1)
  | (.ok updated, db1) =>
    match tenantCreateEvent env db1
        { type := "project_updated", projectId := some updated.id } with
    | (.error f, db2) => (.error f, db2)
    | (.ok _, db2) =>
      (.ok { success := true
             message := "Project updated successfully!"
             projectId := some updated.id }, db2)

/-- Body of `updateProject` (the `try` block). -/
def updateProjectBody (env : Env) (db : DB) (projectId : Nat) (fd : FormData) :
    Except Fault ProjectActionResult × DB :=
  match env.auth with
  | .error f => (.error f, db)
  | .ok session =>
    match session.currentTenantId with
    | none => (.ok { success := false, message := "Tenant context required." }, db)
    | some tenantId =>
      match updateProjectSchemaParse (rawUpdateData fd) with
      | .error f => (.error f, db)
      | .ok validated =>
        match env.tenantAccess with
        | .error f => (.error f, db)
        | .ok _ =>
          match env.sessionDB with
          | .error f => (.error f, db)
          | .ok _ =>
            match findUniqueProjectByIdTenant db projectId tenantId with
            | none =>
              (.ok { success := false
                     message := "Project not found or you do not have access to it." }, db)
            | some existingProject =>
              match validated.name with
              | some n =>
                if n ≠ existingProject.name then
                  let newSlug := generateSlug n
                  match findConflictingProject db tenantId newSlug projectId with
                  | some _ =>
                    (.ok { success := false
                           message := "A project with this name already exists. Please choose a different name." }, db)
                  | none =>
                    updateProjectFinish env db tenantId projectId
                      (updateDataOfValidated validated (some newSlug))
                else
                  updateProjectFinish env db tenantId projectId
                    (updateDataOfValidated validated none)
              | none =>
                updateProjectFinish env db tenantId projectId
                  (updateDataOfValidated validated none)

/-- `updateProject`: the `catch` block surfaces the first Zod issue and
returns a generic structured failure for every other fault. -/
def updateProject (env : Env) (db : DB) (projectId : Nat) (fd : FormData) :
    Except Fault ProjectActionResult × DB :=
  match updateProjectBody env db projectId fd with
  | (.ok r, db') => (.ok r, db')
  | (.error (.zodError msg), db') => (.ok { success := false, message := msg }, db')
  | (.error _, db') =>
    (.ok { success := false
           message := "Failed to update project. Please try again." }, db')

/-- Body of `deleteProject` (the `try` block). -/
def deleteProjectBody (env : Env) (db : DB) (projectId : Nat) :
    Except Fault ProjectActionResult × DB :=
  match env.auth with
  | .error f => (.error f, db)
  | .ok session =>
    match session.currentTenantId with
    | none => (.ok { success := false, message := "Tenant context required." }, db)
    | some tenantId =>
      match env.tenantAccess with
      | .error f => (.error f, db)
      | .ok _ =>
        match env.sessionDB with
        | .error f => (.error f, db)
        | .ok _ =>
          match findUniqueProjectByIdTenant db projectId tenantId with
          | none =>
            (.ok { success := false
                   message := "Project not found or you do not have access to it." }, db)
          | some _ =>
            match directUpdateProject env db projectId { isActive := some false } with
            | (.error f, db1) => (.error f, db1)
            | (.ok _, db1) =>
              match tenantCreateEvent env db1
                  { type := "project_deleted", projectId := some projectId } with
              | (.error f, db2) => (.error f, db2)
              | (.ok _, db2) =>
                (.ok { success := true
                       message := "Project deleted successfully." }, db2)

/-- `deleteProject`: the `catch` block returns a generic structured
failure for every fault. -/
def deleteProject (env : Env) (db : DB) (projectId : Nat) :
    Except Fault ProjectActionResult × DB :=
  match deleteProjectBody env db projectId with
  | (.ok r, db') => (.ok r, db')
  | (.error _, db') =>
    (.ok { success := false
           message := "Failed to delete project. Please try again." }, db')

/-- Body of `toggleProjectPublic` (the `try` block). -/
def toggleProjectPublicBody (env : Env) (db : DB) (projectId : Nat)
    (isPublic : Bool) : Except Fault ProjectActionResult × DB :=
  match env.auth with
  | .error f => (.error f, db)
  | .ok session =>
    match session.currentTenantId with
    | none => (.ok { success := false, message := "Tenant context required." }, db)
    | some tenantId =>
      match env.tenantAccess with
      | .error f => (.error f, db)
      | .ok _ =>
        match env.sessionDB with
        | .error f => (.error f, db)
        | .ok _ =>
          match tenantUpdateProject env db tenantId projectId
              { isPublic := some isPublic
                publishedAt := some (if isPublic then some env.now else none) } with
          | (.error f, db1) => (.error f, db1)
          | (.ok updated, db1) =>
            match tenantCreateEvent env db1
                { type := if isPublic then "project_published" else "project_unpublished"
                  projectId := some projectId } with
            | (.error f, db2) => (.error f, db2)
            | (.ok _, db2) =>
              (.ok { success := true
                     message := if isPublic then "Project published successfully!"
                                else "Project unpublished successfully!"
                     projectId := some updated.id }, db2)

/-- `toggleProjectPublic`: the `catch` block returns a generic structured
failure for every fault. -/
def toggleProjectPublic (env : Env) (db : DB) (projectId : Nat)
    (isPublic : Bool) : Except Fault ProjectActionResult × DB :=
  match toggleProjectPublicBody env db projectId isPublic with
  | (.ok r, db') => (.ok r, db')
  | (.error _, db') =>
    (.ok { success := false
           message := "Failed to update project visibility. Please try again." }, db')

/-! ## duplicateProject -/

/-- The slugs currently held by projects of a tenant (the loop's
`findFirst` filters on `tenantId` and `slug` only, with no `isActive`
filter, and the store does not change during the loop). -/
def tenantSlugs (db : DB) (tenantId : Nat) : List String :=
  (db.projects.filter (fun p => p.tenantId == tenantId)).map Project.slug

/-- The slug-collision loop of `duplicateProject`, with explicit fuel.
The source loop is unbounded; `duplicateProjectBody` runs it with fuel
`taken.length + 1`, which is proved below to always suffice, so the
out-of-fuel branch is unreachable. -/
def dupSlugLoop (taken : List String) (dupName : String) :
    Nat → String → Nat → Option String
  | 0, _, _ => none
  | fuel + 1, slug, counter =>
    if slug ∈ taken then
      dupSlugLoop taken dupName fuel
        (generateSlug (dupName ++ " " ++ natStr counter)) (counter + 1)
    else some slug

/-- The candidate slug tried at loop iteration `i`. -/
def dupCandidate (dupName : String) : Nat → String
  | 0 => generateSlug dupName
  | n + 1 => generateSlug (dupName ++ " " ++ natStr (n + 1))

/-- Body of `duplicateProject` (the `try` block). -/
def duplicateProjectBody (env : Env) (db : DB) (projectId : Nat) :
    Except Fault ProjectActionResult × DB :=
  match env.auth with
  | .error f => (.error f, db)
  | .ok session =>
    match session.currentTenantId with
    | none => (.ok { success := false, message := "Tenant context required." }, db)
    | some tenantId =>
      match env.tenantAccess with
      | .error f => (.error f, db)
      | .ok _ =>
        match env.sessionDB with
        | .error f => (.error f, db)
        | .ok _ =>
          match findUniqueProjectByIdTenant db projectId tenantId with
          | none =>
            (.ok { success := false
                   message := "Source project not found or you do not have access to it." }, db)
          | some sourceProject =>
            let duplicateName := sourceProject.name ++ " (Copy)"
            let taken := tenantSlugs db tenantId
            match dupSlugLoop taken duplicateName (taken.length + 1)
                (generateSlug duplicateName) 1 with
            | none => (.error .dbFailure, db)
            | some duplicateSlug =>
              match tenantCreateProject env db tenantId
                  { name := duplicateName, slug := duplicateSlug
                    description := sourceProject.description
                    isPublic := false
                    metaTitle := sourceProject.metaTitle
                    metaDescription := sourceProject.metaDescription
                    primaryColor := sourceProject.primaryColor
                    customCss := sourceProject.customCss
                    settings := sourceProject.settings } with
              | (.error f, db1) => (.error f, db1)
              | (.ok dup, db1) =>
                match tenantCreateEvent env db1
                    { type := "project_duplicated", projectId := some dup.id } with
                | (.error f, db2) => (.error f, db2)
                | (.ok _, db2) =>
                  (.ok { success := true
                         message := "Project duplicated successfully!"
                         projectId := some dup.id }, db2)

/-- `duplicateProject`: the `catch` block returns a generic structured
failure for every fault. -/
def duplicateProject (env : Env) (db : DB) (projectId : Nat) :
    Except Fault ProjectActionResult × DB :=
  match duplicateProjectBody env db projectId with
  | (.ok r, db') => (.ok r, db')
  | (.error _, db') =>
    (.ok { success := false
           message := "Failed to duplicate project. Please try again." }, db')

/-! ## Derived notions used by the verification -/

/-- A character is a plain digit-like character: alphanumeric and fixed
by lowercasing. -/
def goodChar (c : Char) : Prop := c.isAlphanum = true ∧ c.toLower = c

instance : DecidablePred goodChar := fun c =>
  inferInstanceAs (Decidable (c.isAlphanum = true ∧ c.toLower = c))

/-- The spec invariant: `publishedAt` is non-null iff the project is
currently public. -/
def pubInv (p : Project) : Prop := p.publishedAt ≠ none ↔ p.isPublic = true

instance : DecidablePred pubInv := fun p =>
  inferInstanceAs (Decidable (p.publishedAt ≠ none ↔ p.isPublic = true))

/-- One row respects the partial-update contract: identity preserved,
each omitted optional field unchanged, and `isPublic` either untouched or
overwritten with the boolean the form data coerced to. -/
def FrameOK (v : UpdateFields) (q q2 : Project) : Prop :=
  q2.id = q.id ∧
  (v.name = none → q2.name = q.name ∧ q2.slug = q.slug) ∧
  (v.description = none → q2.description = q.description) ∧
  (v.metaTitle = none → q2.metaTitle = q.metaTitle) ∧
  (v.metaDescription = none → q2.metaDescription = q.metaDescription) ∧
  (v.primaryColor = none → q2.primaryColor = q.primaryColor) ∧
  (v.customCss = none → q2.customCss = q.customCss) ∧
  (q2.isPublic = q.isPublic ∨ q2.isPublic = v.isPublic)

instance : ∀ v q q2, Decidable (FrameOK v q q2) := fun _ _ _ =>
  inferInstanceAs (Decidable (_ ∧ _))

/-- The row `duplicateProject` inserts for source `src` and fresh slug
`s`. -/
def dupRecord (db : DB) (t : Nat) (src : Project) (s : String) : Project :=
  { id := db.nextId, tenantId := t, name := src.name ++ " (Copy)", slug := s
    description := src.description, isPublic := false, publishedAt := none
    metaTitle := src.metaTitle, metaDescription := src.metaDescription
    primaryColor := src.primaryColor, customCss := src.customCss
    settings := src.settings, isActive := true }

/-! ## Concrete fixtures for counterexamples and witnesses -/

/-- An environment in which every collaborator succeeds. -/
def envOK : Env :=
  { auth := .ok { userId := 1, currentTenantId := some 1 }
    tenantAccess := .ok (), sessionDB := .ok ()
    projectWrite := .ok (), eventWrite := .ok (), now := 42 }

/-- An empty store. -/
def dbEmpty : DB := { projects := [], documents := [], events := [], nextId := 10 }

/-- A sample project row in tenant 1. -/
def projFix : Project :=
  { id := 5, tenantId := 1, name := "API Docs", slug := "api-docs"
    description := none, isPublic := false, publishedAt := none
    metaTitle := none, metaDescription := none, primaryColor := none
    customCss := none, settings := defaultSettings, isActive := true }

/-- A store holding exactly one project. -/
def dbWith (p : Project) : DB := { dbEmpty with projects := [p] }

/-! ## Lemmas about decimal digits -/

theorem natDigitsAux_eq (fuel : Nat) :
    ∀ n, n ≤ fuel → natDigitsAux fuel n = Nat.digits 10 n := by
  induction fuel with
  | zero =>
    intro n hn
    interval_cases n
    simp [natDigitsAux]
  | succ fuel ih =>
    intro n hn
    match n with
    | 0 => simp [natDigitsAux]
    | m + 1 =>
      have hdiv : (m + 1) / 10 ≤ fuel := by
        have : (m + 1) / 10 < m + 1 := Nat.div_lt_self (Nat.succ_pos m) (by norm_num)
        omega
      rw [natDigitsAux, ih _ hdiv,
        (Nat.digits_def' (b := 10) (by norm_num) (Nat.succ_pos m))]

theorem natDigits_eq (n : Nat) : natDigits n = Nat.digits 10 n :=
  natDigitsAux_eq n n le_rfl

theorem digitChar_inj10 :
    ∀ a, a < 10 → ∀ b, b < 10 → Nat.digitChar a = Nat.digitChar b → a = b := by
  decide

theorem map_digitChar_inj :
    ∀ l1 l2 : List Nat, (∀ d ∈ l1, d < 10) → (∀ d ∈ l2, d < 10) →
      l1.map Nat.digitChar = l2.map Nat.digitChar → l1 = l2 := by
  intro l1
  induction l1 with
  | nil => intro l2 _ _ h; cases l2 <;> simp_all
  | cons a as ih =>
    intro l2 h1 h2 h
    cases l2 with
    | nil => simp at h
    | cons b bs =>
      simp only [List.map_cons, List.cons.injEq] at h
      have ha : a = b :=
        digitChar_inj10 a (h1 a (by simp)) b (h2 b (by simp)) h.1
      have hs : as = bs :=
        ih bs (fun d hd => h1 d (by simp [hd])) (fun d hd => h2 d (by simp [hd])) h.2
      rw [ha, hs]

theorem natStr_inj {n m : Nat} (h : natStr n = natStr m) : n = m := by
  unfold natStr at h
  by_cases hn : n = 0 <;> by_cases hm : m = 0
  · omega
  · exfalso
    rw [if_pos hn, if_neg hm] at h
    have hd : ['0'] = ((natDigits m).reverse.map Nat.digitChar) := congrArg String.data h
    rw [natDigits_eq] at hd
    match hrev : (Nat.digits 10 m).reverse with
    | [] => rw [hrev] at hd; simp at hd
    | [d] =>
      rw [hrev] at hd
      simp only [List.map_cons, List.map_nil, List.cons.injEq] at hd
      have hdm : d ∈ Nat.digits 10 m := by
        have : d ∈ (Nat.digits 10 m).reverse := by rw [hrev]; simp
        simpa using this
      have hd10 : d < 10 := Nat.digits_lt_base (by norm_num) hdm
      have hd0 : d = 0 := digitChar_inj10 d hd10 0 (by norm_num) hd.1.symm
      have hdig : Nat.digits 10 m = [d] := by
        have := congrArg List.reverse hrev
        simpa using this
      have := Nat.ofDigits_digits 10 m
      rw [hdig, hd0] at this
      simp [Nat.ofDigits] at this
      omega
    | d :: e :: rest =>
      rw [hrev] at hd
      simp at hd
  · exfalso
    rw [if_neg hn, if_pos hm] at h
    have hd : ((natDigits n).reverse.map Nat.digitChar) = ['0'] := congrArg String.data h
    rw [natDigits_eq] at hd
    match hrev : (Nat.digits 10 n).reverse with
    | [] => rw [hrev] at hd; simp at hd
    | [d] =>
      rw [hrev] at hd
      simp only [List.map_cons, List.map_nil, List.cons.injEq] at hd
      have hdm : d ∈ Nat.digits 10 n := by
        have : d ∈ (Nat.digits 10 n).reverse := by rw [hrev]; simp
        simpa using this
      have hd10 : d < 10 := Nat.digits_lt_base (by norm_num) hdm
      have hd0 : d = 0 := digitChar_inj10 d hd10 0 (by norm_num) hd.1
      have hdig : Nat.digits 10 n = [d] := by
        have := congrArg List.reverse hrev
        simpa using this
      have := Nat.ofDigits_digits 10 n
      rw [hdig, hd0] at this
      simp [Nat.ofDigits] at this
      omega
    | d :: e :: rest =>
      rw [hrev] at hd
      simp at hd
  · rw [if_neg hn, if_neg hm] at h
    have hd := congrArg String.data h
    rw [natDigits_eq, natDigits_eq] at hd
    have hrev : (Nat.digits 10 n).reverse = (Nat.digits 10 m).reverse :=
      map_digitChar_inj _ _
        (fun d hdm => Nat.digits_lt_base (by norm_num) (by simpa using hdm))
        (fun d hdm => Nat.digits_lt_base (by norm_num) (by simpa using hdm)) hd
    have hdig : Nat.digits 10 n = Nat.digits 10 m := by
      have := congrArg List.reverse hrev
      simpa using this
    have h1 := Nat.ofDigits_digits 10 n
    have h2 := Nat.ofDigits_digits 10 m
    rw [hdig] at h1
    omega

theorem digitChar_good : ∀ d, d < 10 → goodChar (Nat.digitChar d) := by
  decide

theorem natStr_data_good (n : Nat) : ∀ c ∈ (natStr n).data, goodChar c := by
  intro c hc
  unfold natStr at hc
  by_cases hn : n = 0
  · rw [if_pos hn] at hc
    simp only [String.data] at hc
    have : c = '0' := by simpa using hc
    rw [this]; constructor <;> decide
  · rw [if_neg hn] at hc
    simp only [String.data] at hc
    rw [natDigits_eq] at hc
    simp only [List.mem_map, List.mem_reverse] at hc
    obtain ⟨d, hd, rfl⟩ := hc
    exact digitChar_good d (Nat.digits_lt_base (by norm_num) hd)

theorem natStr_data_ne_nil {n : Nat} (hn : n ≠ 0) : (natStr n).data ≠ [] := by
  unfold natStr
  rw [if_neg hn]
  simp only [String.data, ne_eq, List.map_eq_nil_iff, List.reverse_eq_nil_iff]
  rw [natDigits_eq]
  exact Nat.digits_ne_nil_iff_ne_zero.mpr hn

/-! ## Lemmas about the slug normalizer -/

theorem slugA_append (l1 : List Char) :
    ∀ (st : SlugSt) (l2 : List Char),
      slugA st (l1 ++ l2) = slugA st l1 ++ slugA (l1.foldl slugStep st) l2 := by
  induction l1 with
  | nil => intro st l2; simp [slugA]
  | cons c cs ih =>
    intro st l2
    by_cases h : c.isAlphanum
    · simp only [List.cons_append, slugA, if_pos h, List.foldl_cons, List.append_eq]
      rw [ih]
      have hstep : slugStep st c = .word := by simp [slugStep, h]
      rw [hstep, List.append_assoc]
    · simp only [List.cons_append, slugA, if_neg h, List.foldl_cons, List.append_eq]
      rw [ih]

theorem foldl_slugStep_start (l : List Char) :
    ∀ st, l.foldl slugStep st = .start → st = .start := by
  induction l with
  | nil => intro st h; simpa using h
  | cons c cs ih =>
    intro st h
    simp only [List.foldl_cons] at h
    have hc := ih _ h
    unfold slugStep at hc
    by_cases hal : c.isAlphanum
    · rw [if_pos hal] at hc; exact absurd hc (by simp)
    · rw [if_neg hal] at hc
      cases st with
      | start => rfl
      | word => exact absurd hc (by simp)
      | pend => exact absurd hc (by simp)

theorem slugA_start_of_foldl_start (l : List Char) :
    l.foldl slugStep .start = .start → slugA .start l = [] := by
  induction l with
  | nil => intro _; rfl
  | cons c cs ih =>
    intro h
    simp only [List.foldl_cons] at h
    have hstep : slugStep .start c = .start := foldl_slugStep_start cs _ h
    have hal : c.isAlphanum = false := by
      by_contra hc
      simp only [Bool.not_eq_false] at hc
      simp [slugStep, hc] at hstep
    have hgoal : slugA .start (c :: cs) = slugA (slugStep .start c) cs := by
      simp [slugA, hal]
    rw [hgoal, hstep]
    rw [hstep] at h
    exact ih h

theorem slugA_word_good (l : List Char) (hg : ∀ c ∈ l, goodChar c) :
    slugA .word l = l := by
  induction l with
  | nil => rfl
  | cons c cs ih =>
    have hc := hg c (by simp)
    simp only [slugA, if_pos hc.1]
    rw [hc.2, ih (fun d hd => hg d (by simp [hd]))]
    rfl

theorem slugA_start_good (l : List Char) (hg : ∀ c ∈ l, goodChar c) :
    slugA .start l = l := by
  cases l with
  | nil => rfl
  | cons c cs =>
    have hc := hg c (by simp)
    simp only [slugA, if_pos hc.1]
    rw [hc.2, slugA_word_good cs (fun d hd => hg d (by simp [hd]))]
    rfl

theorem slugA_pend_good (l : List Char) (hg : ∀ c ∈ l, goodChar c)
    (hne : l ≠ []) : slugA .pend l = '-' :: l := by
  cases l with
  | nil => exact absurd rfl hne
  | cons c cs =>
    have hc := hg c (by simp)
    simp only [slugA, if_pos hc.1]
    rw [hc.2, slugA_word_good cs (fun d hd => hg d (by simp [hd]))]
    rfl

/-- Normalizing `base` followed by a space and a digit-only word yields
the normalization of `base` followed by a dash and the word (with no dash
when `base` normalizes to nothing). -/
theorem slugA_append_sep_digits (base d : List Char) (hne : d ≠ [])
    (hg : ∀ c ∈ d, goodChar c) :
    slugA .start (base ++ ' ' :: d) =
      (if base.foldl slugStep .start = .start then []
       else slugA .start base ++ ['-']) ++ d := by
  have hsp : (' ').isAlphanum = false := by decide
  have h1 : base ++ ' ' :: d = base ++ ([' '] ++ d) := by simp
  rw [h1, slugA_append]
  have h2 : slugA (base.foldl slugStep .start) ([' '] ++ d) =
      slugA (slugStep (base.foldl slugStep .start) ' ') d := by
    simp only [List.singleton_append, slugA, hsp]
    rw [if_neg (by simp [hsp])]
    rfl
  rw [h2]
  by_cases hst : base.foldl slugStep .start = .start
  · rw [if_pos hst, hst]
    have hstep : slugStep SlugSt.start ' ' = .start := by simp [slugStep, hsp]
    rw [hstep, slugA_start_good d hg, slugA_start_of_foldl_start base hst]
  · rw [if_neg hst]
    have hstep : ∀ st : SlugSt, st ≠ .start → slugStep st ' ' = .pend := by
      intro st hstn
      unfold slugStep
      rw [if_neg (by simp [hsp])]
      cases st with
      | start => exact absurd rfl hstn
      | word => rfl
      | pend => rfl
    rw [hstep _ hst, slugA_pend_good d hg hne]
    simp

/-- The list of characters of candidate `i + 1`: a fixed prefix
determined by the duplicate name, followed by the decimal counter. -/
theorem dupCandidate_succ_data (dupName : String) (i : Nat) :
    (dupCandidate dupName (i + 1)).data =
      (if dupName.data.foldl slugStep .start = .start then []
       else slugA .start dupName.data ++ ['-']) ++ (natStr (i + 1)).data := by
  show slugA .start ((dupName ++ " " ++ natStr (i + 1)).data) = _
  have hdata : (dupName ++ " " ++ natStr (i + 1)).data =
      dupName.data ++ ' ' :: (natStr (i + 1)).data := by
    rw [String.data_append, String.data_append]
    simp
  rw [hdata]
  exact slugA_append_sep_digits dupName.data (natStr (i + 1)).data
    (natStr_data_ne_nil (Nat.succ_ne_zero i)) (natStr_data_good (i + 1))

theorem dupCandidate_zero_data (dupName : String) :
    (dupCandidate dupName 0).data = slugA .start dupName.data := rfl

theorem dupCandidate_inj (dupName : String) :
    Function.Injective (dupCandidate dupName) := by
  intro i j h
  have hdata := congrArg String.data h
  match i, j with
  | 0, 0 => rfl
  | 0, j + 1 =>
    exfalso
    rw [dupCandidate_zero_data, dupCandidate_succ_data] at hdata
    by_cases hst : dupName.data.foldl slugStep .start = .start
    · rw [if_pos hst] at hdata
      rw [slugA_start_of_foldl_start _ hst] at hdata
      exact natStr_data_ne_nil (Nat.succ_ne_zero j) (by simpa using hdata.symm)
    · rw [if_neg hst] at hdata
      have hlen := congrArg List.length hdata
      simp only [List.length_append, List.length_cons] at hlen
      have hpos : 0 < (natStr (j + 1)).data.length :=
        List.length_pos.mpr (natStr_data_ne_nil (Nat.succ_ne_zero j))
      omega
  | i + 1, 0 =>
    exfalso
    rw [dupCandidate_zero_data, dupCandidate_succ_data] at hdata
    by_cases hst : dupName.data.foldl slugStep .start = .start
    · rw [if_pos hst] at hdata
      rw [slugA_start_of_foldl_start _ hst] at hdata
      exact natStr_data_ne_nil (Nat.succ_ne_zero i) (by simpa using hdata)
    · rw [if_neg hst] at hdata
      have hlen := congrArg List.length hdata
      simp only [List.length_append, List.length_cons] at hlen
      have hpos : 0 < (natStr (i + 1)).data.length :=
        List.length_pos.mpr (natStr_data_ne_nil (Nat.succ_ne_zero i))
      omega
  | i + 1, j + 1 =>
    rw [dupCandidate_succ_data, dupCandidate_succ_data] at hdata
    have hcancel := List.append_cancel_left hdata
    have hstr : natStr (i + 1) = natStr (j + 1) := String.ext hcancel
    rw [natStr_inj hstr]

/-! ## Termination of the slug-collision loop -/

/-- Among the first `taken.length + 1` candidates one is not taken. -/
theorem exists_fresh_candidate (taken : List String) (dupName : String) :
    ∃ i, i ≤ taken.length ∧ dupCandidate dupName i ∉ taken := by
  by_contra hcon
  push_neg at hcon
  have hsub : (Finset.range (taken.length + 1)).image (dupCandidate dupName) ⊆
      taken.toFinset := by
    intro s hs
    simp only [Finset.mem_image, Finset.mem_range] at hs
    obtain ⟨i, hi, rfl⟩ := hs
    exact List.mem_toFinset.mpr (hcon i (by omega))
  have hcard :
      ((Finset.range (taken.length + 1)).image (dupCandidate dupName)).card =
        taken.length + 1 := by
    rw [Finset.card_image_of_injective _ (dupCandidate_inj dupName)]
    simp
  have hle := Finset.card_le_card hsub
  rw [hcard] at hle
  have := List.toFinset_card_le (l := taken)
  omega

/-- If some candidate within the fuel is free, the loop returns the first
free candidate. -/
theorem dupSlugLoop_some (taken : List String) (dupName : String) :
    ∀ fuel i, (∃ j, j < fuel ∧ dupCandidate dupName (i + j) ∉ taken) →
      ∃ s, dupSlugLoop taken dupName fuel (dupCandidate dupName i) (i + 1) =
          some s ∧ s ∉ taken := by
  intro fuel
  induction fuel with
  | zero => intro i ⟨j, hj, _⟩; omega
  | succ fuel ih =>
    intro i ⟨j, hj, hfree⟩
    by_cases hmem : dupCandidate dupName i ∈ taken
    · have hj0 : j ≠ 0 := by
        intro h0
        rw [h0] at hfree
        exact hfree (by simpa using hmem)
      obtain ⟨j', rfl⟩ : ∃ j', j = j' + 1 := ⟨j - 1, by omega⟩
      have hnext : generateSlug (dupName ++ " " ++ natStr (i + 1)) =
          dupCandidate dupName (i + 1) := rfl
      have hstep :
          dupSlugLoop taken dupName (fuel + 1) (dupCandidate dupName i) (i + 1) =
            dupSlugLoop taken dupName fuel (dupCandidate dupName (i + 1)) (i + 1 + 1) := by
        rw [dupSlugLoop, if_pos hmem, hnext]
      rw [hstep]
      exact ih (i + 1) ⟨j', by omega, by
        have : i + 1 + j' = i + (j' + 1) := by omega
        rw [this]
        exact hfree⟩
    · exact ⟨dupCandidate dupName i, by rw [dupSlugLoop, if_neg hmem], hmem⟩

/-- Whatever the loop returns is not a taken slug. -/
theorem dupSlugLoop_not_mem (taken : List String) (dupName : String) :
    ∀ fuel slug c s, dupSlugLoop taken dupName fuel slug c = some s →
      s ∉ taken := by
  intro fuel
  induction fuel with
  | zero => intro slug c s h; exact absurd h (by simp [dupSlugLoop])
  | succ fuel ih =>
    intro slug c s h
    rw [dupSlugLoop] at h
    by_cases hm : slug ∈ taken
    · rw [if_pos hm] at h
      exact ih _ _ _ h
    · rw [if_neg hm] at h
      have : slug = s := by injection h
      rw [← this]
      exact hm

/-- The slug-collision loop of `duplicateProject`, run with the fuel the
body gives it, always finds a slug no project in the tenant holds. -/
theorem dupSlugLoop_fresh (taken : List String) (dupName : String) :
    ∃ s, dupSlugLoop taken dupName (taken.length + 1)
        (generateSlug dupName) 1 = some s ∧ s ∉ taken := by
  obtain ⟨i, hi, hfree⟩ := exists_fresh_candidate taken dupName
  have h0 : generateSlug dupName = dupCandidate dupName 0 := rfl
  rw [h0]
  exact dupSlugLoop_some taken dupName (taken.length + 1) 0
    ⟨i, by omega, by simpa using hfree⟩

/-! ## Shape of a successful toggleProjectPublic -/

/-- The DB component is unaffected by the `catch` wrapper. -/
theorem toggleProjectPublic_snd (env : Env) (db : DB) (pid : Nat) (b : Bool) :
    (toggleProjectPublic env db pid b).2 = (toggleProjectPublicBody env db pid b).2 := by
  unfold toggleProjectPublic
  rcases toggleProjectPublicBody env db pid b with ⟨res, dbx⟩
  cases res <;> rfl

/-- A successful toggle updated exactly the rows matching the id inside
the session tenant, setting `isPublic` and `publishedAt` together. -/
theorem toggle_success_shape {env : Env} {db : DB} {pid : Nat} {b : Bool}
    {u t : Nat} {r : ProjectActionResult} {db2 : DB}
    (hauth : env.auth = .ok { userId := u, currentTenantId := some t })
    (h : toggleProjectPublic env db pid b = (.ok r, db2))
    (hs : r.success = true) :
    db2.projects = db.projects.map (fun q =>
      if q.id == pid && q.tenantId == t then
        applyUpdate q { isPublic := some b
                        publishedAt := some (if b then some env.now else none) }
      else q) := by
  rcases hbody : toggleProjectPublicBody env db pid b with ⟨res, dbx⟩
  unfold toggleProjectPublic at h
  rw [hbody] at h
  cases res with
  | error f =>
    simp only [Prod.mk.injEq, Except.ok.injEq] at h
    rw [← h.1] at hs
    simp at hs
  | ok rr =>
    simp only [Prod.mk.injEq, Except.ok.injEq] at h
    obtain ⟨hr, hdb⟩ := h
    subst hr hdb
    unfold toggleProjectPublicBody at hbody
    rw [hauth] at hbody
    simp only at hbody
    cases hta : env.tenantAccess with
    | error f => rw [hta] at hbody; simp at hbody
    | ok _ =>
      rw [hta] at hbody
      simp only at hbody
      cases hsd : env.sessionDB with
      | error f => rw [hsd] at hbody; simp at hbody
      | ok _ =>
        rw [hsd] at hbody
        simp only at hbody
        unfold tenantUpdateProject at hbody
        cases hpw : env.projectWrite with
        | error f => rw [hpw] at hbody; simp at hbody
        | ok _ =>
          rw [hpw] at hbody
          simp only at hbody
          cases hfind : db.projects.find? (fun p => p.id == pid && p.tenantId == t) with
          | none => rw [hfind] at hbody; simp at hbody
          | some p =>
            rw [hfind] at hbody
            simp only at hbody
            unfold tenantCreateEvent at hbody
            cases hev : env.eventWrite with
            | error f => rw [hev] at hbody; simp at hbody
            | ok _ =>
              rw [hev] at hbody
              simp only [Prod.mk.injEq, Except.ok.injEq] at hbody
              rw [← hbody.2]

/-! ## Claim C1 -/

/-- C1 is false as stated: a project created with `isPublic = true` has a
null `publishedAt` immediately after creation, because `createProject`
never writes `publishedAt`. -/
theorem claim1_counterexample :
    ¬ (∀ p ∈ (createProject envOK dbEmpty
        [("name", "Docs"), ("isPublic", "true")]).2.projects, pubInv p) := by
  decide

/-- C1 (amended): the `publishedAt`/`isPublic` equivalence is established
for the toggled project by every successful `toggleProjectPublic`; it
does not hold for all states reachable through the mutation service,
since `createProject` with `isPublic = true` leaves `publishedAt` null. -/
theorem claim1_toggle_establishes_pubInv {env : Env} {db : DB} {pid : Nat}
    {b : Bool} {u t : Nat} {r : ProjectActionResult} {db2 : DB}
    (hauth : env.auth = .ok { userId := u, currentTenantId := some t })
    (h : toggleProjectPublic env db pid b = (.ok r, db2))
    (hs : r.success = true) :
    ∀ q ∈ db2.projects, q.id = pid → q.tenantId = t → pubInv q := by
  intro q hq hid ht
  rw [toggle_success_shape hauth h hs] at hq
  obtain ⟨q0, hq0, rfl⟩ := List.mem_map.mp hq
  by_cases hcond : (q0.id == pid && q0.tenantId == t) = true
  · rw [if_pos hcond]
    unfold pubInv applyUpdate
    cases b <;> simp
  · rw [if_neg hcond] at hid ht
    simp [hid, ht] at hcond

theorem claim1_witness :
    pubInv { projFix with isPublic := true, publishedAt := some 42 } := by
  have happ := @claim1_toggle_establishes_pubInv envOK (dbWith projFix) 5 true 1 1
    { success := true, message := "Project published successfully!"
      projectId := some 5, error := none }
    (toggleProjectPublic envOK (dbWith projFix) 5 true).2
    (by decide) (by decide) (by decide)
  exact happ _ (by decide) (by decide) (by decide)

/-! ## Claim C2 -/

/-- C2 is false as stated: the pre-insert conflict check of
`createProject` has no `isActive` filter, so a soft-deleted project with
the derived slug also triggers the failure. -/
theorem claim2_counterexample :
    ({ projFix with isActive := false } : Project).isActive = false ∧
    (createProject envOK (dbWith { projFix with isActive := false })
        [("name", "API Docs")]).1 =
      .ok { success := false
            message := "A project with this name already exists. Please choose a different name." } := by
  constructor
  · rfl
  · decide

/-- C2 (amended): with every collaborator succeeding and a valid name,
`createProject` fails with the slug-conflict message if and only if some
project of the caller's tenant — active or soft-deleted — holds the
derived slug; a project of another tenant never triggers it. -/
theorem claim2_slug_conflict_iff {env : Env} {db : DB} {fd : FormData}
    {u t : Nat} {n : String}
    (hauth : env.auth = .ok { userId := u, currentTenantId := some t })
    (hta : env.tenantAccess = .ok ()) (hsd : env.sessionDB = .ok ())
    (hpw : env.projectWrite = .ok ()) (hev : env.eventWrite = .ok ())
    (hname : (rawCreateData fd).name = some n) (hn : n ≠ "") :
    ((createProject env db fd).1 =
      .ok { success := false
            message := "A project with this name already exists. Please choose a different name." }) ↔
    ∃ p ∈ db.projects, p.tenantId = t ∧ p.slug = generateSlug n := by
  unfold createProject createProjectBody createProjectSchemaParse
  rw [hauth, hname]
  simp only
  rw [if_neg hn]
  simp only
  rw [hta, hsd]
  simp only
  cases hfind : findFirstProjectByTenantSlug db t (generateSlug n) with
  | some p =>
    unfold findFirstProjectByTenantSlug at hfind
    simp only
    constructor
    · intro _
      have hmem := List.mem_of_find?_eq_some hfind
      have hpred := List.find?_some hfind
      simp only [Bool.and_eq_true, beq_iff_eq] at hpred
      exact ⟨p, hmem, hpred.1, hpred.2⟩
    · intro _; trivial
  | none =>
    unfold findFirstProjectByTenantSlug at hfind
    unfold tenantCreateProject tenantCreateEvent
    rw [hpw, hev]
    simp only
    constructor
    · intro hcontra
      simp only [Except.ok.injEq, ProjectActionResult.mk.injEq] at hcontra
      exact absurd hcontra.1 (by simp)
    · intro hex
      exfalso
      obtain ⟨p, hp, hpt, hps⟩ := hex
      have := List.find?_eq_none.mp hfind p hp
      simp [hpt, hps] at this

theorem claim2_witness :
    (createProject envOK (dbWith projFix) [("name", "API Docs")]).1 =
      .ok { success := false
            message := "A project with this name already exists. Please choose a different name." } := by
  exact (@claim2_slug_conflict_iff envOK (dbWith projFix)
    [("name", "API Docs")] 1 1 "API Docs"
    (by decide) (by decide) (by decide) (by decide) (by decide) (by decide)
    (by decide)).mpr ⟨projFix, by decide, by decide, by decide⟩

/-! ## Claim C6 -/

/-- A partial update carrying only `isActive := false` flips that flag
and nothing else. -/
theorem applyUpdate_isActive (q : Project) :
    applyUpdate q { isActive := some false } = { q with isActive := false } := rfl

/-- A successful `deleteProject` left the document table untouched and
mapped the project table by flipping `isActive` on the rows matching the
id. -/
theorem delete_success_shape {env : Env} {db : DB} {pid : Nat}
    {r : ProjectActionResult} {db2 : DB}
    (h : deleteProject env db pid = (.ok r, db2))
    (hs : r.success = true) :
    db2.documents = db.documents ∧
    (∃ p', db.projects.find? (fun q => q.id == pid) = some p') ∧
    db2.projects = db.projects.map (fun q =>
      if q.id == pid then { q with isActive := false } else q) := by
  rcases hbody : deleteProjectBody env db pid with ⟨res, dbx⟩
  unfold deleteProject at h
  rw [hbody] at h
  cases res with
  | error f =>
    simp only [Prod.mk.injEq, Except.ok.injEq] at h
    rw [← h.1] at hs
    simp at hs
  | ok rr =>
    simp only [Prod.mk.injEq, Except.ok.injEq] at h
    obtain ⟨hr, hdb⟩ := h
    subst hr hdb
    unfold deleteProjectBody at hbody
    cases hauth : env.auth with
    | error f =>
      rw [hauth] at hbody
      simp at hbody
    | ok s =>
      rw [hauth] at hbody
      simp only at hbody
      cases hsid : s.currentTenantId with
      | none =>
        rw [hsid] at hbody
        simp only [Prod.mk.injEq, Except.ok.injEq] at hbody
        rw [← hbody.1] at hs
        simp at hs
      | some t =>
        rw [hsid] at hbody
        simp only at hbody
        cases hta : env.tenantAccess with
        | error f => rw [hta] at hbody; simp at hbody
        | ok _ =>
          rw [hta] at hbody
          simp only at hbody
          cases hsd : env.sessionDB with
          | error f => rw [hsd] at hbody; simp at hbody
          | ok _ =>
            rw [hsd] at hbody
            simp only at hbody
            cases hfind : findUniqueProjectByIdTenant db pid t with
            | none =>
              rw [hfind] at hbody
              simp only [Prod.mk.injEq, Except.ok.injEq] at hbody
              rw [← hbody.1] at hs
              simp at hs
            | some p =>
              rw [hfind] at hbody
              simp only at hbody
              unfold directUpdateProject at hbody
              cases hpw : env.projectWrite with
              | error f => rw [hpw] at hbody; simp at hbody
              | ok _ =>
                rw [hpw] at hbody
                simp only at hbody
                cases hfind2 : db.projects.find? (fun q => q.id == pid) with
                | none => rw [hfind2] at hbody; simp at hbody
                | some p' =>
                  rw [hfind2] at hbody
                  simp only at hbody
                  unfold tenantCreateEvent at hbody
                  cases hev : env.eventWrite with
                  | error f => rw [hev] at hbody; simp at hbody
                  | ok _ =>
                    rw [hev] at hbody
                    simp only [Prod.mk.injEq, Except.ok.injEq] at hbody
                    refine ⟨?_, ⟨p', rfl⟩, ?_⟩
                    · rw [← hbody.2]
                    · rw [← hbody.2]
                      simp only
                      exact List.map_congr_left (fun q _ => by
                        by_cases hc : (q.id == pid) = true
                        · rw [if_pos hc, if_pos hc, applyUpdate_isActive]
                        · rw [if_neg hc, if_neg hc])

/-- C6: a successful `deleteProject` only flips `isActive` to false on
the target row: the row count is unchanged, every non-target row is
untouched, the target row keeps every other field, a direct lookup by id
still finds it (soft-deleted), and the document table is untouched. -/
theorem claim6_soft_delete_frame {env : Env} {db : DB} {pid : Nat}
    {r : ProjectActionResult} {db2 : DB}
    (h : deleteProject env db pid = (.ok r, db2))
    (hs : r.success = true) :
    db2.documents = db.documents ∧
    db2.projects.length = db.projects.length ∧
    (∀ i (hi : i < db.projects.length) (hi2 : i < db2.projects.length),
      ((db.projects.get ⟨i, hi⟩).id ≠ pid →
        db2.projects.get ⟨i, hi2⟩ = db.projects.get ⟨i, hi⟩) ∧
      ((db.projects.get ⟨i, hi⟩).id = pid →
        db2.projects.get ⟨i, hi2⟩ =
          { db.projects.get ⟨i, hi⟩ with isActive := false })) ∧
    (∃ q ∈ db2.projects, q.id = pid ∧ q.isActive = false) := by
  obtain ⟨hdocs, ⟨p', hp'⟩, hproj⟩ := delete_success_shape h hs
  refine ⟨hdocs, ?_, ?_, ?_⟩
  · rw [hproj, List.length_map]
  · intro i hi hi2
    constructor
    · intro hne
      rw [List.get_of_eq hproj ⟨i, hi2⟩]
      simp only [List.get_eq_getElem, List.getElem_map]
      rw [if_neg (by simpa using hne)]
    · intro heq
      rw [List.get_of_eq hproj ⟨i, hi2⟩]
      simp only [List.get_eq_getElem, List.getElem_map]
      rw [if_pos (by simpa using heq)]
  · refine ⟨{ p' with isActive := false }, ?_, ?_, rfl⟩
    · rw [hproj]
      refine List.mem_map.mpr ⟨p', List.mem_of_find?_eq_some hp', ?_⟩
      rw [if_pos (List.find?_some hp')]
    · have := List.find?_some hp'
      simpa using this

theorem claim6_witness :
    (deleteProject envOK (dbWith projFix) 5).2.documents = (dbWith projFix).documents ∧
    (deleteProject envOK (dbWith projFix) 5).2.projects.length = 1 ∧
    ((dbWith projFix).projects.get ⟨0, by decide⟩).id = 5 := by
  obtain ⟨hdocs, hlen, hidx, hq⟩ := @claim6_soft_delete_frame envOK
    (dbWith projFix) 5
    { success := true, message := "Project deleted successfully."
      projectId := none, error := none }
    (deleteProject envOK (dbWith projFix) 5).2
    (by decide) (by decide)
  refine ⟨hdocs, ?_, by decide⟩
  rw [hlen]
  rfl

/-! ## Claim C5 -/

/-- C5: when `updateProject` is given a name different from the stored
one, it fails with the slug-conflict message exactly when another project
of the tenant holds the derived slug; with no other holder the update
succeeds (in particular when the derived slug is the project's own); and
when the submitted name equals the stored name, no slug check happens at
all: the update succeeds and every stored slug is left unchanged, even if
another project holds the would-be slug. -/
theorem claim5_update_rename_slug {env : Env} {db : DB} {pid : Nat}
    {fd : FormData} {u t : Nat} {n : String} {ex : Project}
    (hauth : env.auth = .ok { userId := u, currentTenantId := some t })
    (hta : env.tenantAccess = .ok ()) (hsd : env.sessionDB = .ok ())
    (hpw : env.projectWrite = .ok ()) (hev : env.eventWrite = .ok ())
    (hname : (rawUpdateData fd).name = some n)
    (hfind : findUniqueProjectByIdTenant db pid t = some ex) :
    (n ≠ ex.name →
      (∃ q ∈ db.projects, q.tenantId = t ∧ q.slug = generateSlug n ∧ q.id ≠ pid) →
      (updateProject env db pid fd).1 =
        .ok { success := false
              message := "A project with this name already exists. Please choose a different name." }) ∧
    (n ≠ ex.name →
      (∀ q ∈ db.projects, ¬(q.tenantId = t ∧ q.slug = generateSlug n ∧ q.id ≠ pid)) →
      ∃ r', (updateProject env db pid fd).1 = .ok r' ∧ r'.success = true) ∧
    (n = ex.name →
      (∃ r', (updateProject env db pid fd).1 = .ok r' ∧ r'.success = true) ∧
      (updateProject env db pid fd).2.projects.map Project.slug =
        db.projects.map Project.slug) := by
  unfold updateProject updateProjectBody updateProjectSchemaParse
  rw [hauth]
  simp only
  rw [hta, hsd]
  simp only
  rw [hfind]
  simp only
  rw [hname]
  simp only
  refine ⟨?_, ?_, ?_⟩
  · intro hne hconf
    rw [if_pos hne]
    obtain ⟨q, hq, hqt, hqs, hqid⟩ := hconf
    cases hc : findConflictingProject db t (generateSlug n) pid with
    | some q' => simp only
    | none =>
      exfalso
      unfold findConflictingProject at hc
      have := List.find?_eq_none.mp hc q hq
      simp [hqt, hqs, hqid] at this
  · intro hne hnoconf
    rw [if_pos hne]
    cases hc : findConflictingProject db t (generateSlug n) pid with
    | some q' =>
      exfalso
      unfold findConflictingProject at hc
      have hpred := List.find?_some hc
      have hmem := List.mem_of_find?_eq_some hc
      simp only [Bool.and_eq_true, beq_iff_eq, Bool.not_eq_eq_eq_not,
        Bool.not_true, beq_eq_false_iff_ne, ne_eq] at hpred
      exact hnoconf q' hmem ⟨hpred.1.1, hpred.1.2, hpred.2⟩
    | none =>
      simp only
      unfold updateProjectFinish tenantUpdateProject
      rw [hpw]
      simp only
      unfold findUniqueProjectByIdTenant at hfind
      rw [hfind]
      simp only
      unfold tenantCreateEvent
      rw [hev]
      simp only
      exact ⟨_, rfl, rfl⟩
  · intro heq
    rw [if_neg (by simp [heq])]
    unfold updateProjectFinish tenantUpdateProject
    rw [hpw]
    simp only
    unfold findUniqueProjectByIdTenant at hfind
    rw [hfind]
    simp only
    unfold tenantCreateEvent
    rw [hev]
    simp only
    refine ⟨⟨_, rfl, rfl⟩, ?_⟩
    rw [List.map_map]
    exact List.map_congr_left (fun q _ => by
      by_cases hc : (q.id == pid && q.tenantId == t) = true
      · rw [Function.comp_apply, if_pos hc]
        rfl
      · rw [Function.comp_apply, if_neg hc])

theorem claim5_witness :
    (updateProject envOK
        { dbEmpty with projects := [projFix,
            { projFix with id := 6, name := "User Guide", slug := "user-guide" }] }
        5 [("name", "User Guide")]).1 =
      .ok { success := false
            message := "A project with this name already exists. Please choose a different name." } := by
  have h := @claim5_update_rename_slug envOK
    { dbEmpty with projects := [projFix,
        { projFix with id := 6, name := "User Guide", slug := "user-guide" }] }
    5 [("name", "User Guide")] 1 1 "User Guide" projFix
    (by decide) (by decide) (by decide) (by decide) (by decide) (by decide)
    (by decide)
  exact h.1 (by decide)
    ⟨{ projFix with id := 6, name := "User Guide", slug := "user-guide" },
      by decide, by decide, by decide, by decide⟩

/-! ## Claim C3 -/

/-- The DB component is unaffected by the `catch` wrapper. -/
theorem updateProject_snd (env : Env) (db : DB) (pid : Nat) (fd : FormData) :
    (updateProject env db pid fd).2 = (updateProjectBody env db pid fd).2 := by
  unfold updateProject
  rcases updateProjectBody env db pid fd with ⟨res, dbx⟩
  cases res with
  | ok r => rfl
  | error f => cases f <;> rfl

/-- The project table after the shared update tail: unchanged, or mapped
with the given partial update on the rows matching id and tenant. -/
theorem updateFinish_projects (env : Env) (db : DB) (t pid : Nat)
    (d : ProjectUpdateData) :
    (updateProjectFinish env db t pid d).2.projects = db.projects ∨
    (updateProjectFinish env db t pid d).2.projects =
      db.projects.map (fun q =>
        if q.id == pid && q.tenantId == t then applyUpdate q d else q) := by
  unfold updateProjectFinish tenantUpdateProject
  cases hpw : env.projectWrite with
  | error f => exact Or.inl rfl
  | ok _ =>
    simp only
    cases hfu : db.projects.find? (fun p => p.id == pid && p.tenantId == t) with
    | none => exact Or.inl rfl
    | some p =>
      simp only
      unfold tenantCreateEvent
      cases hev : env.eventWrite with
      | error f => exact Or.inr rfl
      | ok _ => exact Or.inr rfl

/-- The project table after any `updateProject` call: unchanged, or mapped
with the validated partial update (plus possibly a regenerated slug, and
only when a name was submitted). -/
theorem updateProject_projects_cases (env : Env) (db : DB) (pid : Nat)
    (fd : FormData) :
    (updateProject env db pid fd).2.projects = db.projects ∨
    ∃ t slugOpt, ((rawUpdateData fd).name = none → slugOpt = none) ∧
      (updateProject env db pid fd).2.projects =
        db.projects.map (fun q =>
          if q.id == pid && q.tenantId == t then
            applyUpdate q (updateDataOfValidated (rawUpdateData fd) slugOpt)
          else q) := by
  rw [updateProject_snd]
  unfold updateProjectBody updateProjectSchemaParse
  cases hauth : env.auth with
  | error f => exact Or.inl rfl
  | ok s =>
    simp only
    cases hsid : s.currentTenantId with
    | none => exact Or.inl rfl
    | some t =>
      simp only
      cases hta : env.tenantAccess with
      | error f => exact Or.inl rfl
      | ok _ =>
        simp only
        cases hsd : env.sessionDB with
        | error f => exact Or.inl rfl
        | ok _ =>
          simp only
          cases hfu : findUniqueProjectByIdTenant db pid t with
          | none => exact Or.inl rfl
          | some ex =>
            simp only
            cases hnm : (rawUpdateData fd).name with
            | none =>
              simp only
              rcases updateFinish_projects env db t pid
                  (updateDataOfValidated (rawUpdateData fd) none) with h | h
              · exact Or.inl h
              · exact Or.inr ⟨t, none, fun _ => rfl, h⟩
            | some nm =>
              simp only
              by_cases hne : nm ≠ ex.name
              · rw [if_pos hne]
                cases hc : findConflictingProject db t (generateSlug nm) pid with
                | some q' => exact Or.inl rfl
                | none =>
                  simp only
                  rcases updateFinish_projects env db t pid
                      (updateDataOfValidated (rawUpdateData fd)
                        (some (generateSlug nm))) with h | h
                  · exact Or.inl h
                  · exact Or.inr ⟨t, some (generateSlug nm),
                      fun hcc => Option.noConfusion hcc, h⟩
              · rw [if_neg hne]
                rcases updateFinish_projects env db t pid
                    (updateDataOfValidated (rawUpdateData fd) none) with h | h
                · exact Or.inl h
                · exact Or.inr ⟨t, none, fun _ => rfl, h⟩

/-- C3 is false as stated: an `updateProject` whose form omits `isPublic`
still changes visibility, because the raw data coerces the missing field
to `false` and the update always writes it. -/
theorem claim3_counterexample :
    ((dbWith { projFix with isPublic := true }).projects.map Project.isPublic = [true]) ∧
    FormData.get [("description", "x")] "isPublic" = none ∧
    ((updateProject envOK (dbWith { projFix with isPublic := true }) 5
        [("description", "x")]).2.projects.map Project.isPublic = [false]) := by
  refine ⟨rfl, rfl, by decide⟩

/-- C3 (amended): `updateProject` is a partial update for `name` (and the
slug derived from it), `description`, `metaTitle`, `metaDescription`,
`primaryColor` and `customCss` — a field the form omits keeps its stored
value — but not for `isPublic`, which is always written with the boolean
the form data coerced to (`false` when the form omits it). -/
theorem claim3_partial_update_frame (env : Env) (db : DB) (pid : Nat)
    (fd : FormData) :
    ∀ i (hi : i < db.projects.length),
      ∃ hi2 : i < (updateProject env db pid fd).2.projects.length,
        FrameOK (rawUpdateData fd) (db.projects.get ⟨i, hi⟩)
          ((updateProject env db pid fd).2.projects.get ⟨i, hi2⟩) := by
  intro i hi
  rcases updateProject_projects_cases env db pid fd with h | ⟨t, slugOpt, hso, h⟩
  · refine ⟨by rw [h]; exact hi, ?_⟩
    rw [List.get_of_eq h ⟨i, _⟩]
    exact ⟨rfl, fun _ => ⟨rfl, rfl⟩, fun _ => rfl, fun _ => rfl, fun _ => rfl,
      fun _ => rfl, fun _ => rfl, Or.inl rfl⟩
  · refine ⟨by rw [h, List.length_map]; exact hi, ?_⟩
    rw [List.get_of_eq h ⟨i, _⟩]
    simp only [List.get_eq_getElem, List.getElem_map]
    by_cases hc : ((db.projects.get ⟨i, hi⟩).id == pid &&
        (db.projects.get ⟨i, hi⟩).tenantId == t) = true
    · rw [if_pos (by simpa using hc)]
      unfold FrameOK applyUpdate updateDataOfValidated
      refine ⟨rfl, ?_, ?_, ?_, ?_, ?_, ?_, Or.inr (by simp)⟩
      · intro hn
        exact ⟨by simp [hn], by simp [hso hn]⟩
      all_goals intro hn
      all_goals simp [hn]
    · rw [if_neg (by simpa using hc)]
      exact ⟨rfl, fun _ => ⟨rfl, rfl⟩, fun _ => rfl, fun _ => rfl, fun _ => rfl,
        fun _ => rfl, fun _ => rfl, Or.inl rfl⟩

theorem claim3_witness :
    FrameOK (rawUpdateData [("description", "x")]) projFix
      { projFix with description := some "x" } := by
  obtain ⟨hi2, hf⟩ := claim3_partial_update_frame envOK (dbWith projFix) 5
    [("description", "x")] 0 (by decide)
  have h1 : (dbWith projFix).projects.get ⟨0, by decide⟩ = projFix := rfl
  have h2 : (updateProject envOK (dbWith projFix) 5
      [("description", "x")]).2.projects.get ⟨0, hi2⟩ =
      { projFix with description := some "x" } := rfl
  rw [h1, h2] at hf
  exact hf

/-! ## Claim C4 -/

theorem updateProject_isOk (env : Env) (db : DB) (pid : Nat) (fd : FormData) :
    ∃ r db2, updateProject env db pid fd = (.ok r, db2) := by
  unfold updateProject
  rcases updateProjectBody env db pid fd with ⟨res, dbx⟩
  cases res with
  | ok r => exact ⟨r, dbx, rfl⟩
  | error f => cases f <;> exact ⟨_, _, rfl⟩

theorem deleteProject_isOk (env : Env) (db : DB) (pid : Nat) :
    ∃ r db2, deleteProject env db pid = (.ok r, db2) := by
  unfold deleteProject
  rcases deleteProjectBody env db pid with ⟨res, dbx⟩
  cases res with
  | ok r => exact ⟨r, dbx, rfl⟩
  | error f => exact ⟨_, _, rfl⟩

theorem toggleProjectPublic_isOk (env : Env) (db : DB) (pid : Nat) (b : Bool) :
    ∃ r db2, toggleProjectPublic env db pid b = (.ok r, db2) := by
  unfold toggleProjectPublic
  rcases toggleProjectPublicBody env db pid b with ⟨res, dbx⟩
  cases res with
  | ok r => exact ⟨r, dbx, rfl⟩
  | error f => exact ⟨_, _, rfl⟩

theorem duplicateProject_isOk (env : Env) (db : DB) (pid : Nat) :
    ∃ r db2, duplicateProject env db pid = (.ok r, db2) := by
  unfold duplicateProject
  rcases duplicateProjectBody env db pid with ⟨res, dbx⟩
  cases res with
  | ok r => exact ⟨r, dbx, rfl⟩
  | error f => exact ⟨_, _, rfl⟩

theorem createProject_isOk_of_auth (env : Env) (db : DB) (fd : FormData)
    (s : Session) (hauth : env.auth = .ok s) :
    ∃ r db2, createProject env db fd = (.ok r, db2) := by
  unfold createProject
  rcases createProjectBody env db fd with ⟨res, dbx⟩
  cases res with
  | ok r => exact ⟨r, dbx, rfl⟩
  | error f =>
    cases f with
    | zodError m => exact ⟨_, _, rfl⟩
    | authFailure => rw [hauth]; exact ⟨_, _, rfl⟩
    | dbFailure => rw [hauth]; exact ⟨_, _, rfl⟩

/-- C4 is false as stated: when `requireAuth` throws, `createProject`'s
`catch` block calls `requireAuth` again while building its log entry, and
that second fault escapes the service boundary as a thrown fault. -/
theorem claim4_counterexample :
    (createProject { envOK with auth := .error .authFailure } dbEmpty
        [("name", "Docs")]).1 = .error .authFailure := by
  decide

/-- C4 (amended): `updateProject`, `deleteProject`, `toggleProjectPublic`
and `duplicateProject` always return a structured result for every
environment; `createProject` does so whenever authentication succeeds,
but when `requireAuth` throws, the fault escapes its `catch` block. -/
theorem claim4_structured_results :
    (∀ (env : Env) (db : DB) (pid : Nat) (fd : FormData),
      ∃ r db2, updateProject env db pid fd = (.ok r, db2)) ∧
    (∀ (env : Env) (db : DB) (pid : Nat),
      ∃ r db2, deleteProject env db pid = (.ok r, db2)) ∧
    (∀ (env : Env) (db : DB) (pid : Nat) (b : Bool),
      ∃ r db2, toggleProjectPublic env db pid b = (.ok r, db2)) ∧
    (∀ (env : Env) (db : DB) (pid : Nat),
      ∃ r db2, duplicateProject env db pid = (.ok r, db2)) ∧
    (∀ (env : Env) (db : DB) (fd : FormData) (s : Session), env.auth = .ok s →
      ∃ r db2, createProject env db fd = (.ok r, db2)) :=
  ⟨updateProject_isOk, deleteProject_isOk, toggleProjectPublic_isOk,
    duplicateProject_isOk, fun env db fd s h => createProject_isOk_of_auth env db fd s h⟩

theorem claim4_witness :
    (∃ r db2, updateProject { envOK with auth := .error .authFailure }
        dbEmpty 5 [] = (.ok r, db2)) ∧
    (∃ r db2, createProject envOK dbEmpty [] = (.ok r, db2)) :=
  ⟨claim4_structured_results.1 _ _ _ _,
    claim4_structured_results.2.2.2.2 envOK dbEmpty []
      { userId := 1, currentTenantId := some 1 } rfl⟩

/-! ## Claim C8 -/

/-- A successful `duplicateProject` found a source row, ran the
slug-collision loop to some result `s`, and appended exactly the record
built from the source with slug `s`. -/
theorem duplicate_success_shape {env : Env} {db : DB} {pid : Nat}
    {u t : Nat} {r : ProjectActionResult} {db2 : DB}
    (hauth : env.auth = .ok { userId := u, currentTenantId := some t })
    (h : duplicateProject env db pid = (.ok r, db2))
    (hs : r.success = true) :
    ∃ src s, findUniqueProjectByIdTenant db pid t = some src ∧
      dupSlugLoop (tenantSlugs db t) (src.name ++ " (Copy)")
        ((tenantSlugs db t).length + 1)
        (generateSlug (src.name ++ " (Copy)")) 1 = some s ∧
      db2.projects = db.projects ++ [dupRecord db t src s] ∧
      r.projectId = some db.nextId := by
  rcases hbody : duplicateProjectBody env db pid with ⟨res, dbx⟩
  unfold duplicateProject at h
  rw [hbody] at h
  cases res with
  | error f =>
    simp only [Prod.mk.injEq, Except.ok.injEq] at h
    rw [← h.1] at hs
    simp at hs
  | ok rr =>
    simp only [Prod.mk.injEq, Except.ok.injEq] at h
    obtain ⟨hr, hdb⟩ := h
    subst hr hdb
    unfold duplicateProjectBody at hbody
    rw [hauth] at hbody
    simp only at hbody
    cases hta : env.tenantAccess with
    | error f => rw [hta] at hbody; simp at hbody
    | ok _ =>
      rw [hta] at hbody
      simp only at hbody
      cases hsd : env.sessionDB with
      | error f => rw [hsd] at hbody; simp at hbody
      | ok _ =>
        rw [hsd] at hbody
        simp only at hbody
        cases hfind : findUniqueProjectByIdTenant db pid t with
        | none =>
          rw [hfind] at hbody
          simp only [Prod.mk.injEq, Except.ok.injEq] at hbody
          rw [← hbody.1] at hs
          simp at hs
        | some src =>
          rw [hfind] at hbody
          simp only at hbody
          cases hloop : dupSlugLoop (tenantSlugs db t) (src.name ++ " (Copy)")
              ((tenantSlugs db t).length + 1)
              (generateSlug (src.name ++ " (Copy)")) 1 with
          | none => rw [hloop] at hbody; simp at hbody
          | some s =>
            rw [hloop] at hbody
            simp only at hbody
            unfold tenantCreateProject insertProject at hbody
            cases hpw : env.projectWrite with
            | error f => rw [hpw] at hbody; simp at hbody
            | ok _ =>
              rw [hpw] at hbody
              simp only at hbody
              unfold tenantCreateEvent at hbody
              cases hev : env.eventWrite with
              | error f => rw [hev] at hbody; simp at hbody
              | ok _ =>
                rw [hev] at hbody
                simp only [Prod.mk.injEq, Except.ok.injEq] at hbody
                obtain ⟨hrr, hdbx⟩ := hbody
                refine ⟨src, s, rfl, hloop, ?_, ?_⟩
                · rw [← hdbx]
                  rfl
                · rw [← hrr]

/-- C8: a successful `duplicateProject` appends exactly one new row, and
that row has `isPublic = false`, whatever the source's visibility was
(the create data hard-codes `isPublic: false`). -/
theorem claim8_duplicate_private {env : Env} {db : DB} {pid : Nat}
    {u t : Nat} {r : ProjectActionResult} {db2 : DB}
    (hauth : env.auth = .ok { userId := u, currentTenantId := some t })
    (h : duplicateProject env db pid = (.ok r, db2))
    (hs : r.success = true) :
    ∃ copy, db2.projects = db.projects ++ [copy] ∧ copy.isPublic = false ∧
      r.projectId = some copy.id := by
  obtain ⟨src, s, _, _, hproj, hpid⟩ := duplicate_success_shape hauth h hs
  exact ⟨dupRecord db t src s, hproj, rfl, hpid⟩

theorem claim8_witness :
    ((duplicateProject envOK (dbWith { projFix with isPublic := true }) 5).2.projects.map
      Project.isPublic) = [true, false] := by
  obtain ⟨copy, hproj, hpub, _⟩ := @claim8_duplicate_private envOK
    (dbWith { projFix with isPublic := true }) 5 1 1
    { success := true, message := "Project duplicated successfully!"
      projectId := some 10, error := none }
    (duplicateProject envOK (dbWith { projFix with isPublic := true }) 5).2
    (by decide) (by decide) (by decide)
  rw [hproj]
  simp [dbWith, dbEmpty, hpub]

/-! ## Claim C9 -/

/-- C9: for any store the slug-collision loop of `duplicateProject`,
started from the "(Copy)"-suffixed slug with counter 1, terminates within
`taken.length + 1` iterations on a slug no project of the tenant holds;
and a successful `duplicateProject` assigns exactly that kind of fresh
slug to the row it appends. -/
theorem claim9_dup_slug_loop_fresh :
    (∀ (db : DB) (tenantId : Nat) (name : String),
      ∃ s, dupSlugLoop (tenantSlugs db tenantId) (name ++ " (Copy)")
          ((tenantSlugs db tenantId).length + 1)
          (generateSlug (name ++ " (Copy)")) 1 = some s ∧
        s ∉ tenantSlugs db tenantId) ∧
    (∀ (env : Env) (db : DB) (pid u t : Nat) (r : ProjectActionResult) (db2 : DB),
      env.auth = .ok { userId := u, currentTenantId := some t } →
      duplicateProject env db pid = (.ok r, db2) → r.success = true →
      ∃ copy, db2.projects = db.projects ++ [copy] ∧
        copy.slug ∉ tenantSlugs db t) := by
  constructor
  · intro db tid name
    exact dupSlugLoop_fresh (tenantSlugs db tid) (name ++ " (Copy)")
  · intro env db pid u t r db2 hauth h hs
    obtain ⟨src, s, _, hloop, hproj, _⟩ := duplicate_success_shape hauth h hs
    exact ⟨dupRecord db t src s, hproj,
      dupSlugLoop_not_mem (tenantSlugs db t) (src.name ++ " (Copy)") _ _ _ _ hloop⟩

theorem claim9_witness :
    (∃ s, dupSlugLoop (tenantSlugs (dbWith projFix) 1) ("API Docs" ++ " (Copy)")
        ((tenantSlugs (dbWith projFix) 1).length + 1)
        (generateSlug ("API Docs" ++ " (Copy)")) 1 = some s ∧
      s ∉ tenantSlugs (dbWith projFix) 1) ∧
    (∃ copy, (duplicateProject envOK (dbWith projFix) 5).2.projects =
        (dbWith projFix).projects ++ [copy] ∧
      copy.slug ∉ tenantSlugs (dbWith projFix) 1) := by
  constructor
  · exact claim9_dup_slug_loop_fresh.1 (dbWith projFix) 1 "API Docs"
  · exact claim9_dup_slug_loop_fresh.2 envOK (dbWith projFix) 5 1 1
      { success := true, message := "Project duplicated successfully!"
        projectId := some 10 }
      (duplicateProject envOK (dbWith projFix) 5).2
      (by decide) (by decide) (by decide)

/-! ## Claim C10 -/

/-- C10: when the project-store write succeeds and the subsequent
`project_created` event write throws, `createProject` returns the generic
structured failure while the new project row remains in the store. -/
theorem claim10_create_not_atomic {env : Env} {db : DB} {fd : FormData}
    {u t : Nat} {n : String}
    (hauth : env.auth = .ok { userId := u, currentTenantId := some t })
    (hta : env.tenantAccess = .ok ()) (hsd : env.sessionDB = .ok ())
    (hpw : env.projectWrite = .ok ())
    (hev : env.eventWrite = .error .dbFailure)
    (hname : (rawCreateData fd).name = some n) (hn : n ≠ "")
    (hnoconf : findFirstProjectByTenantSlug db t (generateSlug n) = none) :
    ∃ p db2,
      createProject env db fd =
        (.ok { success := false
               message := "Failed to create project. Please try again." }, db2) ∧
      db2.projects = db.projects ++ [p] ∧ p.slug = generateSlug n := by
  unfold createProject createProjectBody createProjectSchemaParse
  rw [hauth, hname]
  simp only
  rw [if_neg hn]
  simp only
  rw [hta, hsd]
  simp only
  rw [hnoconf]
  simp only
  unfold tenantCreateProject insertProject
  rw [hpw]
  simp only
  unfold tenantCreateEvent
  rw [hev]
  simp only
  exact ⟨_, _, rfl, rfl, rfl⟩

theorem claim10_witness :
    (createProject { envOK with eventWrite := .error .dbFailure } dbEmpty
        [("name", "Docs")]).1 =
      .ok { success := false
            message := "Failed to create project. Please try again." } ∧
    (createProject { envOK with eventWrite := .error .dbFailure } dbEmpty
        [("name", "Docs")]).2.projects ≠ [] := by
  obtain ⟨p, db2, heq, hproj, _⟩ := @claim10_create_not_atomic
    { envOK with eventWrite := .error .dbFailure } dbEmpty
    [("name", "Docs")] 1 1 "Docs"
    (by decide) (by decide) (by decide) (by decide) (by decide) (by decide)
    (by decide) (by decide)
  rw [heq]
  constructor
  · rfl
  · simp [hproj, dbEmpty]

/-! ## Claim C7 -/

/-- C7: a successful `toggleProjectPublic(id, b)` sets the project's
`isPublic` to `b` and its `publishedAt` to the current time when `b` is
true and to null when `b` is false; applied to the on- and off-toggle in
turn this gives the set-then-cleared behaviour the claim states. -/
theorem claim7_toggle_sets_publishedAt {env : Env} {db : DB} {pid : Nat}
    {b : Bool} {u t : Nat} {r : ProjectActionResult} {db2 : DB}
    (hauth : env.auth = .ok { userId := u, currentTenantId := some t })
    (h : toggleProjectPublic env db pid b = (.ok r, db2))
    (hs : r.success = true) :
    ∀ q ∈ db2.projects, q.id = pid → q.tenantId = t →
      q.isPublic = b ∧ q.publishedAt = (if b then some env.now else none) := by
  intro q hq hid ht
  rw [toggle_success_shape hauth h hs] at hq
  obtain ⟨q0, hq0, rfl⟩ := List.mem_map.mp hq
  by_cases hcond : (q0.id == pid && q0.tenantId == t) = true
  · rw [if_pos hcond]
    unfold applyUpdate
    simp
  · rw [if_neg hcond] at hid ht
    simp [hid, ht] at hcond

theorem claim7_witness :
    (({ projFix with isPublic := true, publishedAt := some 42 } : Project).isPublic = true ∧
      ({ projFix with isPublic := true, publishedAt := some 42 } : Project).publishedAt = some 42) ∧
    (({ projFix with isPublic := false, publishedAt := none } : Project).isPublic = false ∧
      ({ projFix with isPublic := false, publishedAt := none } : Project).publishedAt = none) := by
  constructor
  · exact @claim7_toggle_sets_publishedAt envOK (dbWith projFix) 5 true 1 1
      { success := true, message := "Project published successfully!"
        projectId := some 5, error := none }
      (toggleProjectPublic envOK (dbWith projFix) 5 true).2
      (by decide) (by decide) (by decide) _ (by decide) (by decide) (by decide)
  · exact @claim7_toggle_sets_publishedAt envOK
      (dbWith { projFix with isPublic := true, publishedAt := some 99 }) 5 false 1 1
      { success := true, message := "Project unpublished successfully!"
        projectId := some 5, error := none }
      (toggleProjectPublic envOK
        (dbWith { projFix with isPublic := true, publishedAt := some 99 }) 5 false).2
      (by decide) (by decide) (by decide) _ (by decide) (by decide) (by decide)

end DokuNote
